import Mathlib

/-!
Verification of the Ethereum-Playground-Lab repository: a NestJS DID
orchestration service over the ethr-did registry (src/back/src/did/did.service.ts)
and a pair of EIP-4337 account-abstraction contracts (SimpleAccount,
SimpleAccountFactory).

JavaScript strings are embedded as `List Char`.  The ethers library
primitives that the service calls (checksum rendering, ICAP checksum,
string-to-address parsing, address rendering) are kept abstract in an
`EthersEnv` record; everything the repository itself computes is embedded
concretely from the source.
-/

set_option autoImplicit false

/-- JavaScript strings, embedded as lists of characters. -/
abbrev JStr := List Char

/-- On-chain 160-bit addresses, embedded as `Nat`; the zero address is `0`. -/
abbrev Address := Nat

/-! ## Character classes used by the service's regular expressions -/

/-- Characters kept by the service's `replace(/[^a-fA-F0-9x]/g, '')` strip:
hex digits of either case, decimal digits, and the lowercase letter x. -/
def isKeptHexChar (c : Char) : Bool :=
  decide (48 ≤ c.toNat ∧ c.toNat ≤ 57) ||
  decide (97 ≤ c.toNat ∧ c.toNat ≤ 102) ||
  decide (65 ≤ c.toNat ∧ c.toNat ≤ 70) ||
  decide (c.toNat = 120)

/-- Hexadecimal digits `[0-9a-fA-F]`. -/
def isHexChar (c : Char) : Bool :=
  decide (48 ≤ c.toNat ∧ c.toNat ≤ 57) ||
  decide (97 ≤ c.toNat ∧ c.toNat ≤ 102) ||
  decide (65 ≤ c.toNat ∧ c.toNat ≤ 70)

/-- Decimal digits `[0-9]`. -/
def isDigitChar (c : Char) : Bool :=
  decide (48 ≤ c.toNat ∧ c.toNat ≤ 57)

/-- Alphanumeric characters `[0-9A-Za-z]`. -/
def isAlnumChar (c : Char) : Bool :=
  isDigitChar c ||
  decide (65 ≤ c.toNat ∧ c.toNat ≤ 90) ||
  decide (97 ≤ c.toNat ∧ c.toNat ≤ 122)

/-- Uppercase hex letters `[A-F]`. -/
def isUpperHexLetter (c : Char) : Bool :=
  decide (65 ≤ c.toNat ∧ c.toNat ≤ 70)

/-- Lowercase hex letters `[a-f]`. -/
def isLowerHexLetter (c : Char) : Bool :=
  decide (97 ≤ c.toNat ∧ c.toNat ≤ 102)

/-! ## The service's DID string processing (did.service.ts) -/

/-- JavaScript `String.prototype.split(':')`: splits into the list of
colon-separated segments.  `splitOnColon [] = [[]]`, matching
`''.split(':') = ['']`. -/
def splitOnColon : JStr → List JStr
  | [] => [[]]
  | c :: cs =>
    let r := splitOnColon cs
    if c = ':' then [] :: r
    else
      match r with
      | [] => [[c]]
      | seg :: rest => (c :: seg) :: rest

/-- `parts[parts.length - 1]` of the colon split: the trailing
colon-separated segment of a string. -/
def lastSegment (s : JStr) : JStr :=
  (splitOnColon s).getLastD []

/-- `identity.replace(/[^a-fA-F0-9x]/g, '')`. -/
def stripNonHex (s : JStr) : JStr :=
  s.filter isKeptHexChar

/-- The hex-address regular expression of ethers v5 `getAddress`:
`/^(0x)?[0-9a-fA-F]{40}$/`.  A string of 40 hex digits cannot itself start
with the two characters `0x` (x is not a hex digit), so the two alternatives
are disjoint. -/
def matchesAddrRegex (s : JStr) : Bool :=
  match s with
  | '0' :: 'x' :: rest => rest.length == 40 && rest.all isHexChar
  | _ => s.length == 40 && s.all isHexChar

/-- The ICAP regular expression of ethers v5 `getAddress`:
`/^XE[0-9]{2}[0-9A-Za-z]{30,31}$/`. -/
def matchesIcapRegex (s : JStr) : Bool :=
  match s with
  | 'X' :: 'E' :: d1 :: d2 :: rest =>
    isDigitChar d1 && isDigitChar d2 &&
    (rest.length == 30 || rest.length == 31) && rest.all isAlnumChar
  | _ => false

/-- The mixed-case test of ethers v5 `getAddress`:
`/([A-F].*[a-f])|([a-f].*[A-F])/`, i.e. the string contains both an
uppercase and a lowercase hex letter. -/
def hasMixedCase (s : JStr) : Bool :=
  s.any isUpperHexLetter && s.any isLowerHexLetter

/-- The ethers-library primitives the service delegates to, kept abstract:
`checksum` is `getChecksumAddress` (keccak-based EIP-55 rendering), `ibanOk`
is the ICAP mod-97 checksum test, `addrVal` is the 160-bit value ethers
passes on-chain for an address string, and `renderAddr` is the checksummed
string rendering of an on-chain address (e.g. `wallet.address`). -/
structure EthersEnv where
  checksum : JStr → JStr
  ibanOk : JStr → Bool
  addrVal : JStr → Address
  renderAddr : Address → JStr

/-- ethers v5 `ethers.utils.isAddress`: true when `getAddress` does not
throw.  For a string matching the hex regex, `getAddress` 0x-prefixes it and
throws only when it is mixed-case with a wrong EIP-55 checksum; for a string
matching the ICAP regex it throws only on a wrong mod-97 checksum; every
other string throws. -/
def isAddress (env : EthersEnv) (s : JStr) : Bool :=
  if matchesAddrRegex s then
    let address := if (['0', 'x'] : JStr).isPrefixOf s then s else '0' :: 'x' :: s
    !(hasMixedCase address && !(env.checksum address == address))
  else if matchesIcapRegex s then env.ibanOk s
  else false

/-- The errors thrown by the DID service, with the data their messages
embed.  The per-operation wrappers model the outer catch blocks that
re-throw with an operation-specific message wrapping the inner one. -/
inductive DidError where
  /-- 無効なDIDアドレス形式 (invalid DID address format), naming the
  stripped identity string. -/
  | invalidDidAddress (identity : JStr)
  /-- サポートされていないDID形式 (unsupported DID format), naming the
  input DID. -/
  | unsupportedDid (did : JStr)
  /-- 権限不足 (not authorized), naming the admin wallet address and the
  current owner. -/
  | notAuthorized (admin currentOwner : Address)
  /-- 属性名が長すぎます（31文字以内）(attribute name too long), naming
  the attribute name. -/
  | attrNameTooLong (name : JStr)
  /-- Thrown by ethers `formatBytes32String` when the UTF-8 encoding of the
  name exceeds 31 bytes. -/
  | attrNameTooManyBytes (name : JStr)
  /-- A submitted transaction reverted (`tx.wait()` threw). -/
  | txReverted
  /-- DID登録処理に失敗しました wrapper of `registerDid`. -/
  | registerFailed (e : DidError)
  /-- 属性追加に失敗しました wrapper of `addAttribute`. -/
  | addAttributeFailed (e : DidError)
  /-- 属性削除に失敗しました wrapper of `removeAttribute`. -/
  | removeAttributeFailed (e : DidError)
  /-- DID削除に失敗しました wrapper of `deleteDid`. -/
  | deleteDidFailed (e : DidError)
deriving DecidableEq

/-- The DID-to-address extraction performed verbatim, with identical code,
in `addAttribute` (lines 158-168), `removeAttribute` (lines 218-228) and
`deleteDid` (lines 262-272) of did.service.ts: check the `did:ethr:`
method-name start, split on `:`, take the last segment, strip characters
outside `[a-fA-F0-9x]`, and validate the result with `isAddress`. -/
def extractAddress (env : EthersEnv) (did : JStr) : Except DidError JStr :=
  if ("did:ethr:".toList).isPrefixOf did then
    let identity := stripNonHex (lastSegment did)
    if isAddress env identity then .ok identity
    else .error (.invalidDidAddress identity)
  else .error (.unsupportedDid did)

/-! ## The on-chain ethr-did registry

Modelled from the spec: the registry contract itself is not part of the
repository (only its ABI is, in did.service.ts); the spec describes it as
"the on-chain contract holding identity ownership and attribute records"
whose identities are "owner is itself until reassigned", and `addAttribute`
"requires admin key to currently be the registered owner".  We therefore
model the raw owner mapping (zero meaning unset), the owner view that
defaults to the identity itself, and owner-gated writes. -/

/-- Registry storage: the raw `owners` mapping; `0` means never assigned. -/
structure Registry where
  owners : Address → Address

/-- Modelled from the spec: the registry's `identityOwner` view — the
recorded owner if one was assigned, otherwise the identity itself ("owner
is itself until reassigned"). -/
def identityOwner (st : Registry) (identity : Address) : Address :=
  if st.owners identity = 0 then identity else st.owners identity

/-- Modelled from the spec: the registry's authorization for writes — the
transaction's effective actor must be the current `identityOwner` of the
target identity, else the transaction reverts. -/
def requireOwner (st : Registry) (actor identity : Address) : Bool :=
  actor == identityOwner st identity

/-- State after a successful `changeOwner(identity, newOwner)`. -/
def setOwner (st : Registry) (identity newOwner : Address) : Registry :=
  ⟨fun a => if a = identity then newOwner else st.owners a⟩

/-- The state-changing registry transactions the service can submit
(reads — `identityOwner`, `nonce` — are not transactions). -/
inductive Tx where
  | changeOwner (identity newOwner : Address)
  | changeOwnerSigned (identity newOwner : Address)
  | setAttribute (identity : Address) (name value : JStr) (validity : Nat)
  | revokeAttribute (identity : Address) (name value : JStr)
deriving DecidableEq

/-- The outcome of one orchestration call: the registry state after the
call, the transactions the call submitted (in order, including any that
reverted), and the returned value or thrown error. -/
structure Outcome (ρ : Type) where
  state : Registry
  sent : List Tx
  result : Except DidError ρ

/-- The `{success, transactionHash, did}` object returned by
`addAttribute`, `removeAttribute` and `deleteDid`; the transaction hash is
identified with the transaction it belongs to. -/
structure OpResult where
  success : Bool
  transactionHash : Tx
  did : JStr
deriving DecidableEq

/-- The object returned by `registerDid` (the constant `note` field is
omitted). -/
structure RegisterResult where
  did : JStr
  address : JStr
  publicKey : JStr
  privateKey : JStr
  transactionHash : Tx
deriving DecidableEq

/-! ## UTF-8 byte length (ethers `toUtf8Bytes` / `formatBytes32String`) -/

/-- Number of bytes of the UTF-8 encoding of one character. -/
def charUtf8Size (c : Char) : Nat :=
  if c.toNat < 128 then 1
  else if c.toNat < 2048 then 2
  else if c.toNat < 65536 then 3
  else 4

/-- Byte length of the UTF-8 encoding of a string, as computed by ethers
`toUtf8Bytes(s).length`. -/
def utf8Len (s : JStr) : Nat :=
  (s.map charUtf8Size).sum

/-! ## The DID orchestration service (did.service.ts)

Addresses returned by on-chain reads are compared by the service after
`toLowerCase()`; since ethers renders each address value as a canonical
hex string, that case-insensitive string comparison is value equality, and
is embedded here as equality of `Address` values. -/

/-- `ensureAdminRegistered` (lines 52-67): read
`identityOwner(adminWallet.address)` and, when the result is the zero
address, submit `changeOwner(admin, admin)` and wait for it.  When the read
returns zero the model forces `admin = 0` and `owners admin = 0`, so the
submitted transaction's on-chain authorization (`requireOwner st admin
admin`) always holds and the transaction cannot revert. -/
def ensureAdminRegistered (admin : Address) (st : Registry) : Registry × List Tx :=
  let currentOwner := identityOwner st admin
  if currentOwner = 0 then
    (setOwner st admin admin, [Tx.changeOwner admin admin])
  else (st, [])

/-- `registerDid` (lines 73-135).  The fresh wallet's address `w`, public
key and private key stand for `ethers.Wallet.createRandom()`; the
signature produced with the new wallet's key recovers on-chain to `w`
(correctness of ethers signing), so `changeOwnerSigned` acts with `w` as
actor.  The secondary `setAttribute` step (lines 108-122) is submitted
best-effort: `attrFails` says whether it fails for an external reason
(gas, RPC), and any failure — external or revert — is caught by the inner
catch block and discarded without affecting the returned result. -/
def registerDid (env : EthersEnv) (admin : Address) (st : Registry)
    (w : Address) (pub priv : JStr) (attrFails : Bool) : Outcome RegisterResult :=
  let es := ensureAdminRegistered admin st
  let addrStr := env.renderAddr w
  let did := "did:ethr:sepolia:".toList ++ addrStr
  let tx := Tx.changeOwnerSigned w admin
  if requireOwner es.1 w w then
    let st2 := setOwner es.1 w admin
    let pubTx := Tx.setAttribute w ("did/pub/secp256k1/veriKey".toList) pub 31536000
    let res : RegisterResult := ⟨did, addrStr, pub, priv, tx⟩
    if attrFails then
      ⟨st2, es.2 ++ [tx, pubTx], .ok res⟩
    else
      ⟨st2, es.2 ++ [tx, pubTx], .ok res⟩
  else
    ⟨es.1, es.2 ++ [tx], .error (.registerFailed .txReverted)⟩

/-- `addAttribute` (lines 144-197): bootstrap check, DID-to-address
extraction, ownership check against the admin wallet, 31-character name
length check (JavaScript `length`; it counts UTF-16 units, which agrees
with the character count on the BMP strings modelled here), ethers
`formatBytes32String` (throws past 31 UTF-8 bytes), then the
`setAttribute` write with a one-year validity. -/
def addAttribute (env : EthersEnv) (admin : Address) (st : Registry)
    (did attributeName attributeValue : JStr) : Outcome OpResult :=
  let es := ensureAdminRegistered admin st
  match extractAddress env did with
  | .error e => ⟨es.1, es.2, .error (.addAttributeFailed e)⟩
  | .ok identity =>
    let a := env.addrVal identity
    let currentOwner := identityOwner es.1 a
    if currentOwner ≠ admin then
      ⟨es.1, es.2, .error (.addAttributeFailed (.notAuthorized admin currentOwner))⟩
    else if 31 < attributeName.length then
      ⟨es.1, es.2, .error (.addAttributeFailed (.attrNameTooLong attributeName))⟩
    else if 31 < utf8Len attributeName then
      ⟨es.1, es.2, .error (.addAttributeFailed (.attrNameTooManyBytes attributeName))⟩
    else
      let tx := Tx.setAttribute a attributeName attributeValue 31536000
      if requireOwner es.1 admin a then
        ⟨es.1, es.2 ++ [tx], .ok ⟨true, tx, did⟩⟩
      else
        ⟨es.1, es.2 ++ [tx], .error (.addAttributeFailed .txReverted)⟩

/-- `removeAttribute` (lines 205-243): bootstrap check, the same DID
extraction, ethers `formatBytes32String` on the name (no 31-character
pre-check here), then the `revokeAttribute` write with empty value and no
ownership pre-check (the on-chain owner gate can still revert it). -/
def removeAttribute (env : EthersEnv) (admin : Address) (st : Registry)
    (did attributeName : JStr) : Outcome OpResult :=
  let es := ensureAdminRegistered admin st
  match extractAddress env did with
  | .error e => ⟨es.1, es.2, .error (.removeAttributeFailed e)⟩
  | .ok identity =>
    let a := env.addrVal identity
    if 31 < utf8Len attributeName then
      ⟨es.1, es.2, .error (.removeAttributeFailed (.attrNameTooManyBytes attributeName))⟩
    else
      let tx := Tx.revokeAttribute a attributeName []
      if requireOwner es.1 admin a then
        ⟨es.1, es.2 ++ [tx], .ok ⟨true, tx, did⟩⟩
      else
        ⟨es.1, es.2 ++ [tx], .error (.removeAttributeFailed .txReverted)⟩

/-- `deleteDid` (lines 250-285): bootstrap check, the same DID extraction,
then `changeOwner(identity, AddressZero)` submitted by the admin wallet
and awaited; no ownership pre-check, so the on-chain owner gate decides
whether it reverts. -/
def deleteDid (env : EthersEnv) (admin : Address) (st : Registry)
    (did : JStr) : Outcome OpResult :=
  let es := ensureAdminRegistered admin st
  match extractAddress env did with
  | .error e => ⟨es.1, es.2, .error (.deleteDidFailed e)⟩
  | .ok identity =>
    let a := env.addrVal identity
    let tx := Tx.changeOwner a 0
    if requireOwner es.1 admin a then
      ⟨setOwner es.1 a 0, es.2 ++ [tx], .ok ⟨true, tx, did⟩⟩
    else
      ⟨es.1, es.2 ++ [tx], .error (.deleteDidFailed .txReverted)⟩

/-! ## SimpleAccountFactory.sol -/

/-- The EVM CREATE2 address derivation used by the factory:
`Create2.computeAddress(bytes32(salt), keccak256(proxy creation code ++
abi.encode(implementation, initialize(owner))))` with the factory as
deployer.  The keccak-based derivation is kept abstract; only the `owner`
and `salt` inputs vary across calls of one factory instance, so it is a
function of those two. -/
structure FactoryEnv where
  create2 : Address → Nat → Address

/-- On-chain code presence: `addr.code.length > 0`.  Deploying the proxy at
a CREATE2 address makes code present there (EVM semantics of a successful
CREATE2). -/
structure Chain where
  hasCode : Address → Bool

/-- `SimpleAccountFactory.getAddress(owner, salt)` (lines 61-79). -/
def getAddress (env : FactoryEnv) (owner : Address) (salt : Nat) : Address :=
  env.create2 owner salt

/-- `SimpleAccountFactory.createAccount(owner, salt)` (lines 32-53):
compute the CREATE2 address; when code already exists there, return it
unchanged without deploying; otherwise deploy the ERC1967 proxy with that
salt (which, by CREATE2, lands at the computed address) and return it.
The returned Bool records whether a proxy was deployed by this call. -/
def createAccount (env : FactoryEnv) (ch : Chain) (owner : Address) (salt : Nat) :
    Chain × Address × Bool :=
  let addr := getAddress env owner salt
  if ch.hasCode addr then (ch, addr, false)
  else (⟨fun a => a == addr || ch.hasCode a⟩, addr, true)

/-! ## SimpleAccount.sol (src/unnamed/part_005) -/

/-- The ECDSA primitives SimpleAccount delegates to OpenZeppelin:
`toEthSigned` is `MessageHashUtils.toEthSignedMessageHash` and `recover`
is `ECDSA.recover` on the resulting hash and a signature. -/
structure SigEnv where
  toEthSigned : JStr → JStr
  recover : JStr → JStr → Address

/-- SimpleAccount's mutable storage: `owner` and the private `_nonce`. -/
structure SAState where
  owner : Address
  nonce : Nat
deriving DecidableEq

/-- The fields of a `PackedUserOperation` that `validateUserOp` reads. -/
structure PackedUserOperation where
  nonce : Nat
  signature : JStr

/-- `SIG_VALIDATION_SUCCESS` (line 26). -/
def SIG_VALIDATION_SUCCESS : Nat := 0

/-- `SIG_VALIDATION_FAILED` (line 27). -/
def SIG_VALIDATION_FAILED : Nat := 1

/-- `_validateSignature` (lines 142-153): hash the operation hash as an
eth-signed message, recover the signer, and return 1 when it is not the
owner, 0 when it is; it never reverts. -/
def validateSignature (env : SigEnv) (st : SAState) (op : PackedUserOperation)
    (userOpHash : JStr) : Nat :=
  let hash := env.toEthSigned userOpHash
  let recovered := env.recover hash op.signature
  if st.owner ≠ recovered then SIG_VALIDATION_FAILED
  else SIG_VALIDATION_SUCCESS

/-- `_validateNonce` (lines 159-162): `require(nonce == _nonce)` then
`_nonce++`; `none` is the revert, which leaves storage unchanged. -/
def validateNonce (st : SAState) (nonce : Nat) : Option SAState :=
  if nonce = st.nonce then some ⟨st.owner, st.nonce + 1⟩ else none

/-- `validateUserOp` (lines 126-134) with the `onlyEntryPoint` modifier
(line 34): callable only by the bound EntryPoint; computes the signature
validation data, validates and increments the nonce, then pays the prefund
(`_payPrefund`, lines 168-175, whose ETH transfer success is the external
`prefundOk`; its failed `require` also reverts the whole call).  `none` is
a revert: no storage change survives. -/
def validateUserOp (env : SigEnv) (entryPt sender : Address) (st : SAState)
    (op : PackedUserOperation) (userOpHash : JStr)
    (missingAccountFunds : Nat) (prefundOk : Bool) : Option (SAState × Nat) :=
  if sender = entryPt then
    let validationData := validateSignature env st op userOpHash
    match validateNonce st op.nonce with
    | none => none
    | some st1 =>
      if missingAccountFunds ≠ 0 ∧ prefundOk = false then none
      else some (st1, validationData)
  else none

/-- The call `execute` requests: `_call(dest, value, func)`. -/
structure CallReq where
  dest : Address
  value : Nat
  func : JStr
deriving DecidableEq

/-- `SimpleAccount.execute` (lines 79-85): `require(msg.sender ==
address(_entryPoint) || msg.sender == owner, "not authorized")`, then
perform the requested call. -/
def execute (entryPt : Address) (st : SAState) (sender dest : Address)
    (value : Nat) (func : JStr) : Except String CallReq :=
  if sender = entryPt ∨ sender = st.owner then .ok ⟨dest, value, func⟩
  else .error "not authorized"

/-! ## Helper lemmas about the string codec -/

theorem splitOnColon_ne_nil (s : JStr) : splitOnColon s ≠ [] := by
  cases s with
  | nil => simp [splitOnColon]
  | cons c cs =>
    by_cases hc : c = ':'
    · simp [splitOnColon, hc]
    · rcases h : splitOnColon cs with _ | ⟨seg, rest⟩ <;>
        simp [splitOnColon, hc, h]

theorem splitOnColon_append_colon (u v : JStr) :
    splitOnColon (u ++ ':' :: v) = splitOnColon u ++ splitOnColon v := by
  induction u with
  | nil => simp [splitOnColon]
  | cons c u ih =>
    by_cases hc : c = ':'
    · subst hc
      simp [splitOnColon, ih]
    · obtain ⟨seg, rest, h⟩ : ∃ seg rest, splitOnColon u = seg :: rest := by
        rcases hu : splitOnColon u with _ | ⟨s, r⟩
        · exact absurd hu (splitOnColon_ne_nil u)
        · exact ⟨s, r, rfl⟩
      simp [splitOnColon, hc, ih, h]

theorem splitOnColon_of_no_colon (v : JStr) (h : ':' ∉ v) : splitOnColon v = [v] := by
  induction v with
  | nil => rfl
  | cons c v ih =>
    have hc : c ≠ ':' := by
      rintro rfl
      exact h (List.mem_cons_self _ _)
    have hv : ':' ∉ v := fun hm => h (List.mem_cons_of_mem _ hm)
    simp [splitOnColon, hc, ih hv]

theorem lastSegment_append_colon (u v : JStr) (h : ':' ∉ v) :
    lastSegment (u ++ ':' :: v) = v := by
  unfold lastSegment
  rw [splitOnColon_append_colon, splitOnColon_of_no_colon v h]
  exact List.getLastD_concat _ _ _

theorem isKeptHexChar_of_isHexChar (c : Char) (h : isHexChar c = true) :
    isKeptHexChar c = true := by
  unfold isHexChar at h
  unfold isKeptHexChar
  simp only [Bool.or_eq_true, decide_eq_true_eq] at h ⊢
  tauto

theorem kept_of_matchesAddrRegex (s : JStr) (h : matchesAddrRegex s = true) :
    ∀ c ∈ s, isKeptHexChar c = true := by
  unfold matchesAddrRegex at h
  split at h
  · next rest =>
    simp only [Bool.and_eq_true, List.all_eq_true] at h
    intro c hc
    simp only [List.mem_cons] at hc
    rcases hc with rfl | rfl | hc
    · decide
    · decide
    · exact isKeptHexChar_of_isHexChar c (h.2 c hc)
  · next =>
    simp only [Bool.and_eq_true, List.all_eq_true] at h
    intro c hc
    exact isKeptHexChar_of_isHexChar c (h.2 c hc)

theorem stripNonHex_of_matchesAddrRegex (s : JStr) (h : matchesAddrRegex s = true) :
    stripNonHex s = s := by
  unfold stripNonHex
  exact List.filter_eq_self.mpr (kept_of_matchesAddrRegex s h)

theorem no_colon_of_matchesAddrRegex (s : JStr) (h : matchesAddrRegex s = true) :
    ':' ∉ s := by
  intro hm
  have := kept_of_matchesAddrRegex s h ':' hm
  simp [isKeptHexChar] at this

theorem isPrefixOf_append_self (p r : JStr) : p.isPrefixOf (p ++ r) = true := by
  induction p with
  | nil => simp [List.isPrefixOf]
  | cons c p ih => simp [List.isPrefixOf, ih]

theorem one_le_charUtf8Size (c : Char) : 1 ≤ charUtf8Size c := by
  unfold charUtf8Size
  split
  · omega
  · split
    · omega
    · split <;> omega

theorem length_le_utf8Len (s : JStr) : s.length ≤ utf8Len s := by
  induction s with
  | nil => simp [utf8Len]
  | cons c s ih =>
    have h1 := one_le_charUtf8Size c
    simp only [utf8Len, List.map_cons, List.sum_cons, List.length_cons] at ih ⊢
    omega

deriving instance DecidableEq for Except

/-! ## Concrete instances used by witnesses and counterexamples -/

/-- A lowercase hex address string: `0x` followed by forty `a`s. -/
def addrA : JStr := '0' :: 'x' :: List.replicate 40 'a'

/-- A concrete ethers environment: identity checksum (so every
single-case hex string is accepted, as for a real checksum function on
lowercase strings), no valid ICAP strings, `addrA` parsing to the address
value `9` and every address rendering to `addrA`. -/
def envW : EthersEnv := ⟨fun s => s, fun _ => false, fun _ => 9, fun _ => addrA⟩

/-- A well-formed DID over `addrA`. -/
def did0 : JStr := "did:ethr:sepolia:".toList ++ addrA

/-- A DID whose trailing segment `z0xaaa…a` is not a valid address. -/
def didZ : JStr := "did:ethr:sepolia:z".toList ++ addrA

/-- A 32-character attribute name. -/
def nm32 : JStr := List.replicate 32 'a'

/-- Registry with no owner assignments. -/
def stZero : Registry := ⟨fun _ => 0⟩

/-- Registry in which the admin identity `5` is owned by a third party `7`. -/
def stB : Registry := ⟨fun a => if a = 5 then 7 else 0⟩

/-- Registry in which identity `9` is owned by the admin `5`. -/
def stW : Registry := ⟨fun a => if a = 9 then 5 else 0⟩

/-- Registry in which identity `9` is owned by a third party `7`. -/
def stBad : Registry := ⟨fun a => if a = 9 then 7 else 0⟩

/-- The string `did:ethr:<net>:<addr>`. -/
def didEthrString (net addr : JStr) : JStr :=
  "did:ethr:".toList ++ net ++ ':' :: addr

/-! ## C1: DID-to-address extraction -/

/-- C1 (counterexample): the extraction does not fail on every input whose
trailing colon-separated segment is not a valid hex address.  The DID
`did:ethr:sepolia:z0xaaa…a` has trailing segment `z0xaaa…a`, which is not a
valid hex address, yet extraction strips the `z` and returns the address
`0xaaa…a` instead of failing. -/
theorem extractAddress_strips_invalid_segment :
    lastSegment didZ = 'z' :: addrA ∧
    isAddress envW ('z' :: addrA) = false ∧
    extractAddress envW didZ = .ok addrA := by decide

/-- C1 (amended): for every `did:ethr:<net>:<addr>` whose `<addr>` is a
valid hex address, extraction returns exactly `<addr>` with its letter
case preserved; and extraction fails with a descriptive error exactly on
the inputs whose trailing segment is, after stripping characters outside
`[a-fA-F0-9x]`, still not a valid address (rather than on all inputs whose
trailing segment is not a valid hex address). -/
theorem extractAddress_valid_did (env : EthersEnv) (net addr : JStr)
    (hnet : ':' ∉ net) (hre : matchesAddrRegex addr = true)
    (hok : isAddress env addr = true) :
    extractAddress env (didEthrString net addr) = .ok addr ∧
    ∀ s : JStr, isAddress env (stripNonHex (lastSegment s)) = false →
      ∃ e, extractAddress env s = .error e := by
  constructor
  · have hnc := no_colon_of_matchesAddrRegex addr hre
    have hl : lastSegment (didEthrString net addr) = addr := by
      unfold didEthrString
      exact lastSegment_append_colon _ _ hnc
    have hpre : ("did:ethr:".toList).isPrefixOf (didEthrString net addr) = true := by
      unfold didEthrString
      rw [List.append_assoc]
      exact isPrefixOf_append_self _ _
    unfold extractAddress
    rw [if_pos hpre]
    simp only [hl, stripNonHex_of_matchesAddrRegex addr hre]
    rw [if_pos hok]
  · intro s hbad
    unfold extractAddress
    by_cases hp : ("did:ethr:".toList).isPrefixOf s = true
    · rw [if_pos hp]
      have hne : isAddress env (stripNonHex (lastSegment s)) ≠ true := by simp [hbad]
      simp only [if_neg hne]
      exact ⟨_, rfl⟩
    · rw [if_neg hp]
      exact ⟨_, rfl⟩

/-- C1 (witness): the amended theorem applied to the concrete DID
`did:ethr:sepolia:0xaaa…a`. -/
theorem extractAddress_valid_did_witness :
    extractAddress envW (didEthrString ("sepolia".toList) addrA) = .ok addrA :=
  (extractAddress_valid_did envW ("sepolia".toList) addrA
    (by decide) (by decide) (by decide)).1

/-! ## C2: the admin bootstrap check -/

theorem addAttribute_sent_ensure (env : EthersEnv) (admin : Address) (st : Registry)
    (did nm v : JStr) :
    ∃ r, (addAttribute env admin st did nm v).sent
      = (ensureAdminRegistered admin st).2 ++ r := by
  rcases hex : extractAddress env did with e | idStr
  · exact ⟨[], by simp [addAttribute, hex]⟩
  · simp only [addAttribute, hex]
    repeat' split
    all_goals first
      | exact ⟨[], (List.append_nil _).symm⟩
      | exact ⟨_, rfl⟩

theorem removeAttribute_sent_ensure (env : EthersEnv) (admin : Address) (st : Registry)
    (did nm : JStr) :
    ∃ r, (removeAttribute env admin st did nm).sent
      = (ensureAdminRegistered admin st).2 ++ r := by
  rcases hex : extractAddress env did with e | idStr
  · exact ⟨[], by simp [removeAttribute, hex]⟩
  · simp only [removeAttribute, hex]
    repeat' split
    all_goals first
      | exact ⟨[], (List.append_nil _).symm⟩
      | exact ⟨_, rfl⟩

theorem deleteDid_sent_ensure (env : EthersEnv) (admin : Address) (st : Registry)
    (did : JStr) :
    ∃ r, (deleteDid env admin st did).sent
      = (ensureAdminRegistered admin st).2 ++ r := by
  rcases hex : extractAddress env did with e | idStr
  · exact ⟨[], by simp [deleteDid, hex]⟩
  · simp only [deleteDid, hex]
    repeat' split
    all_goals first
      | exact ⟨[], (List.append_nil _).symm⟩
      | exact ⟨_, rfl⟩

theorem registerDid_sent_ensure (env : EthersEnv) (admin : Address) (st : Registry)
    (w : Address) (pub priv : JStr) (fails : Bool) :
    ∃ r, (registerDid env admin st w pub priv fails).sent
      = (ensureAdminRegistered admin st).2 ++ r := by
  simp only [registerDid]
  repeat' split
  all_goals first
    | exact ⟨[], (List.append_nil _).symm⟩
    | exact ⟨_, rfl⟩

/-- C2 (counterexample): the bootstrap check does not make the admin
identity its own registered owner before a write.  In the registry state
where the admin identity `5` is owned by the third party `7`, the admin is
not its own owner, yet `ensureAdminRegistered` submits no `changeOwner`
transaction and leaves the admin still owned by `7`: the code only repairs
when the owner read returns the zero address, not whenever the admin is
not its own owner. -/
theorem ensureAdminRegistered_no_repair :
    identityOwner stB 5 = 7 ∧ (7 : Address) ≠ 5 ∧
    (ensureAdminRegistered 5 stB).2 = [] ∧
    identityOwner (ensureAdminRegistered 5 stB).1 5 = 7 := by decide

/-- C2 (amended): every mutating orchestration operation first invokes the
bootstrap check, whose transactions precede the operation's own; the check
submits `changeOwner(admin, admin)` exactly when the registry reports the
zero address as the admin's owner, and this establishes admin
self-ownership when the previously registered owner was the zero address
or the admin itself — but not when a third party owns the admin
identity. -/
theorem ensureAdminRegistered_bootstrap (env : EthersEnv) (admin : Address) (st : Registry)
    (did nm v pub priv : JStr) (w : Address) (fails : Bool)
    (h : identityOwner st admin = 0 ∨ identityOwner st admin = admin) :
    identityOwner (ensureAdminRegistered admin st).1 admin = admin ∧
    ((ensureAdminRegistered admin st).2 = [Tx.changeOwner admin admin]
      ↔ identityOwner st admin = 0) ∧
    (∃ r, (addAttribute env admin st did nm v).sent
      = (ensureAdminRegistered admin st).2 ++ r) ∧
    (∃ r, (removeAttribute env admin st did nm).sent
      = (ensureAdminRegistered admin st).2 ++ r) ∧
    (∃ r, (deleteDid env admin st did).sent
      = (ensureAdminRegistered admin st).2 ++ r) ∧
    (∃ r, (registerDid env admin st w pub priv fails).sent
      = (ensureAdminRegistered admin st).2 ++ r) := by
  refine ⟨?_, ?_, addAttribute_sent_ensure env admin st did nm v,
    removeAttribute_sent_ensure env admin st did nm,
    deleteDid_sent_ensure env admin st did,
    registerDid_sent_ensure env admin st w pub priv fails⟩
  · unfold ensureAdminRegistered
    by_cases hz : identityOwner st admin = 0
    · rw [if_pos hz]
      unfold identityOwner setOwner
      simp
    · rw [if_neg hz]
      rcases h with h0 | hself
      · exact absurd h0 hz
      · exact hself
  · unfold ensureAdminRegistered
    by_cases hz : identityOwner st admin = 0
    · rw [if_pos hz]
      simp [hz]
    · rw [if_neg hz]
      simp [hz]

/-- C2 (witness): the amended theorem at the all-zero registry, where the
admin identity `5` is its own owner by default. -/
theorem ensureAdminRegistered_bootstrap_witness :
    identityOwner (ensureAdminRegistered 5 stZero).1 5 = 5 :=
  (ensureAdminRegistered_bootstrap envW 5 stZero did0 nm32 [] [] [] 9 false
    (Or.inr (by decide))).1

/-! ## C3: registerDid embeds the fresh address and survives the secondary step -/

/-- C3: when the primary delegated ownership assignment succeeds,
`registerDid` returns a result whose `did` field is exactly
`did:ethr:sepolia:` followed by the freshly generated wallet's address,
and the result is the same whether the secondary public-key attribute
attachment fails or not: its failure is swallowed. -/
theorem registerDid_did_embeds_address (env : EthersEnv) (admin : Address) (st : Registry)
    (w : Address) (pub priv : JStr)
    (hw : requireOwner (ensureAdminRegistered admin st).1 w w = true) :
    ∃ res : RegisterResult,
      (registerDid env admin st w pub priv false).result = .ok res ∧
      (registerDid env admin st w pub priv true).result = .ok res ∧
      res.did = "did:ethr:sepolia:".toList ++ env.renderAddr w ∧
      res.address = env.renderAddr w ∧
      res.did = "did:ethr:sepolia:".toList ++ res.address := by
  refine ⟨⟨"did:ethr:sepolia:".toList ++ env.renderAddr w, env.renderAddr w, pub, priv,
    Tx.changeOwnerSigned w admin⟩, ?_, ?_, rfl, rfl, rfl⟩ <;>
    simp [registerDid, hw]

/-- C3 (witness): registration of the fresh wallet `9` on the all-zero
registry, with both outcomes of the secondary step. -/
theorem registerDid_did_embeds_address_witness :
    ∃ res : RegisterResult,
      (registerDid envW 5 stZero 9 [] [] false).result = .ok res ∧
      (registerDid envW 5 stZero 9 [] [] true).result = .ok res ∧
      res.did = "did:ethr:sepolia:".toList ++ envW.renderAddr 9 ∧
      res.address = envW.renderAddr 9 ∧
      res.did = "did:ethr:sepolia:".toList ++ res.address :=
  registerDid_did_embeds_address envW 5 stZero 9 [] [] (by decide)

/-! ## C4: addAttribute's ownership gate -/

/-- C4: for a DID that extracts to `idStr`, when the registered owner of
that identity is not the admin wallet, `addAttribute` throws an
authorization error naming both the admin wallet address and the current
owner; when the registered owner is the admin wallet and the attribute
name is within the length limit (31 UTF-8 bytes, which also bounds the
31-character check), it succeeds and returns the object carrying the
transaction hash of the submitted `setAttribute` write. -/
theorem addAttribute_owner_gate (env : EthersEnv) (admin : Address) (st : Registry)
    (did nm v idStr : JStr)
    (hid : extractAddress env did = .ok idStr) :
    (identityOwner (ensureAdminRegistered admin st).1 (env.addrVal idStr) ≠ admin →
      (addAttribute env admin st did nm v).result =
        .error (.addAttributeFailed (.notAuthorized admin
          (identityOwner (ensureAdminRegistered admin st).1 (env.addrVal idStr))))) ∧
    (identityOwner (ensureAdminRegistered admin st).1 (env.addrVal idStr) = admin →
     utf8Len nm ≤ 31 →
      (addAttribute env admin st did nm v).result =
        .ok ⟨true, Tx.setAttribute (env.addrVal idStr) nm v 31536000, did⟩ ∧
      Tx.setAttribute (env.addrVal idStr) nm v 31536000
        ∈ (addAttribute env admin st did nm v).sent) := by
  constructor
  · intro hne
    simp only [addAttribute, hid]
    rw [if_pos hne]
  · intro heq hlen
    have hlen2 : ¬ 31 < nm.length := by
      have := length_le_utf8Len nm
      omega
    have hlen3 : ¬ 31 < utf8Len nm := by omega
    have hro : requireOwner (ensureAdminRegistered admin st).1 admin (env.addrVal idStr) = true := by
      unfold requireOwner
      simp [heq]
    have hne : ¬ (identityOwner (ensureAdminRegistered admin st).1 (env.addrVal idStr) ≠ admin) := by
      simp [heq]
    constructor
    · simp only [addAttribute, hid]
      rw [if_neg hne, if_neg hlen2, if_neg hlen3, if_pos hro]
    · simp only [addAttribute, hid]
      rw [if_neg hne, if_neg hlen2, if_neg hlen3, if_pos hro]
      simp

/-- C4 (witness): on the registry where identity `9` is owned by the
admin `5`, adding a short attribute to `did0` succeeds with the
`setAttribute` transaction, and the gate theorem applies. -/
theorem addAttribute_owner_gate_witness :
    (addAttribute envW 5 stW did0 ['k'] ['v']).result =
      .ok ⟨true, Tx.setAttribute 9 ['k'] ['v'] 31536000, did0⟩ :=
  ((addAttribute_owner_gate envW 5 stW did0 ['k'] ['v'] addrA (by decide)).2
    (by decide) (by decide)).1

/-! ## C5: long attribute names -/

/-- C5 (counterexample): a 32-character attribute name does not always
produce the length-violation error: when the target identity is owned by
a third party, the ownership check precedes the length check and the call
throws the authorization error instead. -/
theorem addAttribute_long_name_counterexample :
    31 < nm32.length ∧
    (addAttribute envW 5 stBad did0 nm32 []).result =
      .error (.addAttributeFailed (.notAuthorized 5 7)) ∧
    (addAttribute envW 5 stBad did0 nm32 []).result ≠
      .error (.addAttributeFailed (.attrNameTooLong nm32)) := by decide

/-- C5 (amended): for every attribute name longer than 31 characters,
`addAttribute` submits no `setAttribute` transaction to the registry; and
when the DID is well-formed and the admin wallet is the registered owner
of the target identity (so the earlier format and authorization checks
pass), the thrown error is the length-violation error. -/
theorem addAttribute_long_name (env : EthersEnv) (admin : Address) (st : Registry)
    (did nm v : JStr)
    (hlen : 31 < nm.length) :
    (∀ a n vl vd, Tx.setAttribute a n vl vd ∉ (addAttribute env admin st did nm v).sent) ∧
    (∀ idStr, extractAddress env did = .ok idStr →
      identityOwner (ensureAdminRegistered admin st).1 (env.addrVal idStr) = admin →
      (addAttribute env admin st did nm v).result =
        .error (.addAttributeFailed (.attrNameTooLong nm))) := by
  have hsent : (addAttribute env admin st did nm v).sent
      = (ensureAdminRegistered admin st).2 := by
    rcases hex : extractAddress env did with e | idStr
    · simp [addAttribute, hex]
    · simp only [addAttribute, hex]
      by_cases hne : identityOwner (ensureAdminRegistered admin st).1 (env.addrVal idStr) ≠ admin
      · rw [if_pos hne]
      · rw [if_neg hne, if_pos hlen]
  constructor
  · intro a n vl vd hmem
    rw [hsent] at hmem
    unfold ensureAdminRegistered at hmem
    by_cases hz : identityOwner st admin = 0
    · rw [if_pos hz] at hmem
      simp at hmem
    · rw [if_neg hz] at hmem
      simp at hmem
  · intro idStr hid hown
    simp only [addAttribute, hid]
    rw [if_neg (by simp [hown]), if_pos hlen]

/-- C5 (witness): the amended theorem at the concrete 32-character name
on the admin-owned identity, where the thrown error is the length
violation. -/
theorem addAttribute_long_name_witness :
    (addAttribute envW 5 stW did0 nm32 []).result =
      .error (.addAttributeFailed (.attrNameTooLong nm32)) :=
  (addAttribute_long_name envW 5 stW did0 nm32 [] (by decide)).2
    addrA (by decide) (by decide)

/-! ## C6: deleteDid zeroes the registered owner -/

/-- C6: when `deleteDid` succeeds on a DID that extracts to `idStr`, it
has submitted a `changeOwner` transaction reassigning the identity's
registered owner to the zero address, and in the registry state after the
call the identity's recorded owner is the zero address. -/
theorem deleteDid_zeroes_owner (env : EthersEnv) (admin : Address) (st : Registry)
    (did idStr : JStr) (r : OpResult)
    (hid : extractAddress env did = .ok idStr)
    (hok : (deleteDid env admin st did).result = .ok r) :
    (deleteDid env admin st did).state.owners (env.addrVal idStr) = 0 ∧
    Tx.changeOwner (env.addrVal idStr) 0 ∈ (deleteDid env admin st did).sent := by
  by_cases hro : requireOwner (ensureAdminRegistered admin st).1 admin (env.addrVal idStr) = true
  · constructor
    · simp only [deleteDid, hid]
      rw [if_pos hro]
      simp [setOwner]
    · simp only [deleteDid, hid]
      rw [if_pos hro]
      simp
  · exfalso
    simp only [deleteDid, hid] at hok
    rw [if_neg hro] at hok
    exact Except.noConfusion hok

/-- C6 (witness): deleting `did0` on the registry where identity `9` is
owned by the admin `5` leaves the recorded owner of `9` at zero. -/
theorem deleteDid_zeroes_owner_witness :
    (deleteDid envW 5 stW did0).state.owners (envW.addrVal addrA) = 0 ∧
    Tx.changeOwner (envW.addrVal addrA) 0 ∈ (deleteDid envW 5 stW did0).sent :=
  deleteDid_zeroes_owner envW 5 stW did0 addrA ⟨true, Tx.changeOwner 9 0, did0⟩
    (by decide) (by decide)

/-! ## C7: factory idempotence -/

/-- C7: calling `createAccount` twice with the same `(owner, salt)`
returns the same address both times, and the second call deploys no
second proxy: code already exists at the precomputed CREATE2 address, so
the address is returned unchanged and the chain state is untouched. -/
theorem createAccount_idempotent (env : FactoryEnv) (ch : Chain) (owner : Address)
    (salt : Nat) :
    (createAccount env (createAccount env ch owner salt).1 owner salt).2.1
      = (createAccount env ch owner salt).2.1 ∧
    (createAccount env (createAccount env ch owner salt).1 owner salt).2.2 = false ∧
    (createAccount env (createAccount env ch owner salt).1 owner salt).1
      = (createAccount env ch owner salt).1 := by
  unfold createAccount getAddress
  by_cases h : ch.hasCode (env.create2 owner salt) = true
  · simp [h]
  · simp [h]

/-- C7 (witness): the idempotence theorem at a concrete factory and empty
chain. -/
theorem createAccount_idempotent_witness :
    (createAccount ⟨fun o s => o + s⟩ (createAccount ⟨fun o s => o + s⟩ ⟨fun _ => false⟩ 3 4).1 3 4).2.1
      = (createAccount ⟨fun o s => o + s⟩ ⟨fun _ => false⟩ 3 4).2.1 ∧
    (createAccount ⟨fun o s => o + s⟩ (createAccount ⟨fun o s => o + s⟩ ⟨fun _ => false⟩ 3 4).1 3 4).2.2
      = false :=
  ⟨(createAccount_idempotent ⟨fun o s => o + s⟩ ⟨fun _ => false⟩ 3 4).1,
   (createAccount_idempotent ⟨fun o s => o + s⟩ ⟨fun _ => false⟩ 3 4).2.1⟩

/-! ## C8: nonce discipline of validateUserOp -/

theorem validateUserOp_eq_some (env : SigEnv) (entryPt sender : Address) (st : SAState)
    (op : PackedUserOperation) (hash : JStr) (mf : Nat) (pf : Bool)
    (st1 : SAState) (vd : Nat)
    (h : validateUserOp env entryPt sender st op hash mf pf = some (st1, vd)) :
    sender = entryPt ∧ op.nonce = st.nonce ∧ st1 = ⟨st.owner, st.nonce + 1⟩ ∧
    vd = validateSignature env st op hash := by
  by_cases hs : sender = entryPt
  · by_cases hn : op.nonce = st.nonce
    · simp only [validateUserOp, validateNonce, if_pos hs, if_pos hn] at h
      by_cases hp : mf ≠ 0 ∧ pf = false
      · rw [if_pos hp] at h
        exact absurd h (by simp)
      · rw [if_neg hp] at h
        simp only [Option.some.injEq, Prod.mk.injEq] at h
        exact ⟨hs, hn, h.1.symm, h.2.symm⟩
    · simp only [validateUserOp, validateNonce, if_pos hs, if_neg hn] at h
      exact absurd h (by simp)
  · simp only [validateUserOp, if_neg hs] at h
    exact absurd h (by simp)

/-- C8: a user operation whose nonce differs from the stored nonce is
rejected (the call reverts, returning `none`, so storage is unchanged),
and every accepted call leaves the stored nonce at exactly the old nonce
plus one. -/
theorem validateUserOp_nonce_discipline (env : SigEnv) (entryPt sender : Address)
    (st : SAState) (op : PackedUserOperation) (hash : JStr) (mf : Nat) (pf : Bool) :
    (op.nonce ≠ st.nonce →
      validateUserOp env entryPt sender st op hash mf pf = none) ∧
    (∀ st1 vd, validateUserOp env entryPt sender st op hash mf pf = some (st1, vd) →
      st1.nonce = st.nonce + 1) := by
  constructor
  · intro hne
    unfold validateUserOp validateNonce
    by_cases hs : sender = entryPt
    · rw [if_pos hs, if_neg hne]
    · rw [if_neg hs]
  · intro st1 vd h
    have hc := validateUserOp_eq_some env entryPt sender st op hash mf pf st1 vd h
    rw [hc.2.2.1]

/-- A concrete signature environment for witnesses: every signature
recovers to the address `3`. -/
def sigEnvW : SigEnv := ⟨fun s => s, fun _ _ => 3⟩

/-- C8 (witness): the nonce discipline at a concrete account with nonce 0
and an operation with nonce 1. -/
theorem validateUserOp_nonce_discipline_witness :
    ((⟨1, []⟩ : PackedUserOperation).nonce ≠ (⟨5, 0⟩ : SAState).nonce →
      validateUserOp sigEnvW 2 2 ⟨5, 0⟩ ⟨1, []⟩ [] 0 true = none) ∧
    (∀ st1 vd, validateUserOp sigEnvW 2 2 ⟨5, 0⟩ ⟨1, []⟩ [] 0 true = some (st1, vd) →
      st1.nonce = (⟨5, 0⟩ : SAState).nonce + 1) :=
  validateUserOp_nonce_discipline sigEnvW 2 2 ⟨5, 0⟩ ⟨1, []⟩ [] 0 true

/-! ## C9: execute's authorization gate -/

/-- C9: `execute` reverts with the `not authorized` error when the caller
is neither the bound EntryPoint nor the owner, performing no call; when
the caller is either of them, the authorization check passes and exactly
the requested call is performed. -/
theorem execute_authorization (entryPt : Address) (st : SAState) (sender dest : Address)
    (value : Nat) (func : JStr) :
    (sender ≠ entryPt → sender ≠ st.owner →
      execute entryPt st sender dest value func = .error "not authorized") ∧
    (sender = entryPt ∨ sender = st.owner →
      execute entryPt st sender dest value func = .ok ⟨dest, value, func⟩) := by
  constructor
  · intro h1 h2
    unfold execute
    rw [if_neg]
    rintro (h | h)
    exacts [h1 h, h2 h]
  · intro h
    unfold execute
    rw [if_pos h]

/-- C9 (witness): caller `3` is rejected by the account owned by `5` and
bound to EntryPoint `2`; caller `5` (the owner) is accepted. -/
theorem execute_authorization_witness :
    execute 2 ⟨5, 0⟩ 3 7 0 [] = .error "not authorized" ∧
    execute 2 ⟨5, 0⟩ 5 7 0 [] = .ok ⟨7, 0, []⟩ :=
  ⟨(execute_authorization 2 ⟨5, 0⟩ 3 7 0 []).1 (by decide) (by decide),
   (execute_authorization 2 ⟨5, 0⟩ 5 7 0 []).2 (Or.inr rfl)⟩

/-! ## C10: an invalid signature still consumes the nonce -/

/-- C10: when the signature does not recover to the owner but the nonce
matches (and the prefund step does not fail), `validateUserOp` does not
revert: it returns `SIG_VALIDATION_FAILED` (1) and the stored nonce is
still incremented, so the operation consumes that nonce. -/
theorem validateUserOp_bad_signature_consumes_nonce (env : SigEnv) (ep : Address)
    (st : SAState) (op : PackedUserOperation) (hash : JStr) (mf : Nat) (pf : Bool)
    (hsig : env.recover (env.toEthSigned hash) op.signature ≠ st.owner)
    (hn : op.nonce = st.nonce)
    (hpf : mf = 0 ∨ pf = true) :
    validateUserOp env ep ep st op hash mf pf
      = some (⟨st.owner, st.nonce + 1⟩, SIG_VALIDATION_FAILED) := by
  have hvd : validateSignature env st op hash = SIG_VALIDATION_FAILED := by
    unfold validateSignature
    rw [if_pos (Ne.symm hsig)]
  have hnp : ¬ (mf ≠ 0 ∧ pf = false) := by
    rcases hpf with h | h <;> simp [h]
  simp [validateUserOp, validateNonce, hn, hvd, hnp]

/-- C10 (witness): the account owned by `5` with nonce 4, and an
operation with nonce 4 whose signature recovers to `3`. -/
theorem validateUserOp_bad_signature_consumes_nonce_witness :
    validateUserOp sigEnvW 2 2 ⟨5, 4⟩ ⟨4, []⟩ [] 0 true
      = some (⟨5, 5⟩, SIG_VALIDATION_FAILED) :=
  validateUserOp_bad_signature_consumes_nonce sigEnvW 2 ⟨5, 4⟩ ⟨4, []⟩ [] 0 true
    (by decide) (by decide) (Or.inl rfl)
